import Mathlib

/-!
# Verification of the minotaur message-dispatch engine

Shallow embedding of the server core of the minotaur game-server framework:
the message routing of `pushMessage`, the dispatcher registry (`UseShunt`,
`ReleaseShunt`), the execution path of `dispatchMessage` with its unique-key
accounting, the shutdown sequence, the gateway JSON re-framing, the websocket
compression option and the message-statistics accessors.

The Go sources embedded here are the newer server implementation
(`pushMessage`, `getConnDispatcher`, `UseShunt`, `shutdown`,
`dispatchMessage`, `GetDurationMessageCountByOffset`), the older server
implementation (its `pushMessage` and the `MessageTypeError` branch of its
`dispatchMessage`), `newGatewayConn` from conn.go and
`WithWebsocketCompression` from options.go.

The repository snapshot does not contain the source of the `dispatcher`
type (`unique`, `antiUnique`, `put`, `transfer`, `close`), the `Message`
struct declaration, the `GP` struct declaration, or `super.MarshalJSON`;
only their callers appear.  Those parts are modelled from the spec and are
marked `Modelled from the spec:` in their doc comments.
-/

namespace Minotaur

/-- Message kinds.  Modelled from the spec: the closed set of message kinds
(§3 "Message kinds"), matching the `MessageType*` constants used by both
server implementations (the `Message` declaration itself is not in the
snapshot). -/
inductive MessageType where
  | Packet
  | Ticker
  | ShuntTicker
  | System
  | Shunt
  | Async
  | ShuntAsync
  | AsyncCallback
  | ShuntAsyncCallback
  | UniqueAsync
  | UniqueShuntAsync
  | UniqueAsyncCallback
  | UniqueShuntAsyncCallback
  | Error
  deriving DecidableEq, Repr

/-- Error actions carried by `MessageTypeError` messages.  Modelled from the
spec: `None` ⇒ log-panic, `Shutdown` ⇒ begin shutdown (the
`MessageErrorAction` constants are referenced by server.go but not declared
in the snapshot). -/
inductive MessageErrorAction where
  | None
  | Shutdown
  deriving DecidableEq, Repr

/-- A pooled message record.  Modelled from the spec (§3 "Message"): kind
tag, optional connection handle, name (ticker label / unique-async key),
optional error and error-action.  Handlers and packet payloads are elided:
the claims below depend only on routing-relevant fields; handler behaviour
is represented by explicit effect lists where needed. -/
structure Message where
  t : MessageType
  conn : Option String := none
  name : String := ""
  errAction : MessageErrorAction := MessageErrorAction.None
  deriving DecidableEq, Repr

/-- The reserved system dispatcher name (`serverSystemDispatcher`, the
literal `"system"`). -/
def serverSystemDispatcher : String := "system"

/-- A dispatcher.  Modelled from the spec (§3 "Dispatcher", §4.B): a named
FIFO queue of messages plus a set of in-flight unique keys.  The queue is a
list in enqueue order; `uniques` is the in-flight unique-key set. -/
structure Dispatcher where
  name : String
  queue : List Message := []
  uniques : List String := []
  deriving DecidableEq, Repr

/-- `dispatcher.unique(key)`: Modelled from the spec (§4.B): atomically
tests-and-sets membership of `key` in the in-flight-key set; returns `true`
iff the key was already present, together with the updated dispatcher. -/
def Dispatcher.unique (d : Dispatcher) (key : String) : Bool × Dispatcher :=
  if key ∈ d.uniques then (true, d)
  else (false, { d with uniques := key :: d.uniques })

/-- `dispatcher.antiUnique(key)`: Modelled from the spec (§4.B): removes
`key` from the in-flight-key set. -/
def Dispatcher.antiUnique (d : Dispatcher) (key : String) : Dispatcher :=
  { d with uniques := d.uniques.erase key }

/-- `dispatcher.put(msg)`: Modelled from the spec (§4.B): enqueue at the
tail of the FIFO. -/
def Dispatcher.put (d : Dispatcher) (m : Message) : Dispatcher :=
  { d with queue := d.queue ++ [m] }

/-- `dispatcher.transfer(other)`: Modelled from the spec (§4.B): drains the
remaining queued items into `other`, preserving FIFO order (the drained
items are appended, in order, after whatever `other` already holds). -/
def Dispatcher.transfer (d : Dispatcher) (other : Dispatcher) : Dispatcher :=
  { other with queue := other.queue ++ d.queue }

/-- Registry state of the newer server implementation: the fields of
`Server` that `pushMessage`, `getConnDispatcher`, `UseShunt` and
`ReleaseShunt` touch, as in part_002 (`dispatchers`,
`dispatcherMember`, `currDispatcher`, `systemDispatcher`, the message
counter and the pool of released messages), plus the trace of emitted
shunt-channel events. -/
structure SrvState where
  dispatchers : String → Option Dispatcher := fun _ => none
  dispatcherMember : String → List String := fun _ => []
  currDispatcher : String → Option String := fun _ => none
  messageCounter : Int := 0
  released : List Message := []
  events : List String := []

namespace SrvState

/-- Look up a dispatcher by name in `dispatchers`. -/
def findDispatcher (s : SrvState) (name : String) : Option Dispatcher :=
  s.dispatchers name

/-- Replace (or insert) the dispatcher stored under `name`. -/
def setDispatcher (s : SrvState) (name : String) (d : Dispatcher) : SrvState :=
  { s with dispatchers := fun m => if m = name then some d else s.dispatchers m }

/-- Remove the dispatcher stored under `name` (Go `delete(srv.dispatchers, name)`). -/
def deleteDispatcher (s : SrvState) (name : String) : SrvState :=
  { s with dispatchers := fun m => if m = name then none else s.dispatchers m }

/-- The members registered under dispatcher `name`
(Go `srv.dispatcherMember[name]`; a missing entry reads as the empty map). -/
def members (s : SrvState) (name : String) : List String :=
  s.dispatcherMember name

/-- Replace the member set stored under `name`. -/
def setMembers (s : SrvState) (name : String) (ms : List String) : SrvState :=
  { s with dispatcherMember := fun m => if m = name then ms else s.dispatcherMember m }

/-- The dispatcher name a connection is currently bound to, if any
(Go `srv.currDispatcher[connId]`). -/
def currOf (s : SrvState) (connId : String) : Option String :=
  s.currDispatcher connId

/-- Bind a connection to a dispatcher name (Go `srv.currDispatcher[connId] = d`). -/
def setCurr (s : SrvState) (connId : String) (name : String) : SrvState :=
  { s with currDispatcher := fun c => if c = connId then some name else s.currDispatcher c }

/-- Unbind a connection (Go `delete(srv.currDispatcher, connId)`). -/
def deleteCurr (s : SrvState) (connId : String) : SrvState :=
  { s with currDispatcher := fun c => if c = connId then none else s.currDispatcher c }

/-- Append an emitted event to the trace. -/
def addEvent (s : SrvState) (e : String) : SrvState :=
  { s with events := s.events ++ [e] }

/-- Record a message returned to the pool (`srv.messagePool.Release`). -/
def addReleased (s : SrvState) (m : Message) : SrvState :=
  { s with released := m :: s.released }

/-- `srv.messageCounter.Add(1)` (from `hitMessageStatistics`). -/
def incCounter (s : SrvState) : SrvState :=
  { s with messageCounter := s.messageCounter + 1 }

/-- `srv.messageCounter.Add(-1)`. -/
def decCounter (s : SrvState) : SrvState :=
  { s with messageCounter := s.messageCounter - 1 }

/-- The queue of the dispatcher stored under `name` (empty if absent). -/
def queueOf (s : SrvState) (name : String) : List Message :=
  ((s.findDispatcher name).map Dispatcher.queue).getD []

/-- The in-flight unique-key set of the dispatcher stored under `name`. -/
def uniquesOf (s : SrvState) (name : String) : List String :=
  ((s.findDispatcher name).map Dispatcher.uniques).getD []

end SrvState

/-- `getConnDispatcher` from part_002: a nil connection yields the system
dispatcher; otherwise the connection's current dispatcher from
`currDispatcher`, falling back to the system dispatcher when the connection
has no entry.  Returns the dispatcher's name (the registry owns the
dispatcher values). -/
def getConnDispatcher (s : SrvState) (conn : Option String) : String :=
  match conn with
  | none => serverSystemDispatcher
  | some cid =>
    match s.currOf cid with
    | some name => name
    | none => serverSystemDispatcher

/-- Routing target chosen by the `switch message.t` of `pushMessage` in
part_002: the first case group selects `getConnDispatcher(message.conn)`,
the second selects the system dispatcher, and a kind matching neither group
leaves the Go `dispatcher` variable nil. -/
inductive RouteTarget where
  | connDispatcher
  | systemDispatcher
  | nilDispatcher
  deriving DecidableEq, Repr

/-- The `switch message.t` of `pushMessage` (part_002 lines 464-472),
translated case list for case list. -/
def pushRoute (t : MessageType) : RouteTarget :=
  match t with
  | MessageType.Packet
  | MessageType.ShuntTicker | MessageType.ShuntAsync | MessageType.ShuntAsyncCallback
  | MessageType.UniqueShuntAsync | MessageType.UniqueShuntAsyncCallback
  | MessageType.Shunt => RouteTarget.connDispatcher
  | MessageType.System | MessageType.Async | MessageType.UniqueAsync
  | MessageType.AsyncCallback | MessageType.UniqueAsyncCallback
  | MessageType.Ticker => RouteTarget.systemDispatcher
  | MessageType.Error => RouteTarget.nilDispatcher

/-- The name of the dispatcher `pushMessage` selects for a message whose
kind matched one of the two case groups. -/
def pushTargetName (s : SrvState) (m : Message) : String :=
  if pushRoute m.t = RouteTarget.connDispatcher
    then getConnDispatcher s m.conn
    else serverSystemDispatcher

/-- `pushMessage` from part_002.  `execBefore` stands for the registered
`OnMessageExecBeforeEvent` chain (`true` = proceed).  A vetoed message is
released to the pool.  The target dispatcher is selected by kind; when the
Go `dispatcher` variable stays nil the function returns without enqueuing
or releasing.  For `UniqueShuntAsync`/`UniqueAsync` kinds,
`dispatcher.unique(name)` is consulted: if the key was already in flight
the message is released and dropped, otherwise the key is now set.  Finally
the message counter is incremented (`hitMessageStatistics`) and the message
enqueued. -/
def pushMessage (execBefore : Message → Bool) (s : SrvState) (m : Message) : SrvState :=
  if ¬ execBefore m then s.addReleased m
  else
    let target := pushRoute m.t
    if target = RouteTarget.nilDispatcher then s
    else
      let dname := pushTargetName s m
      match s.findDispatcher dname with
      | none => s
      | some d =>
        if m.t = MessageType.UniqueShuntAsync ∨ m.t = MessageType.UniqueAsync then
          let (present, d1) := d.unique m.name
          if present then (s.setDispatcher dname d1).addReleased m
          else ((s.setDispatcher dname (d1.put m))).incCounter
        else ((s.setDispatcher dname (d.put m))).incCounter

/-- Add a connection to a member map, Go `member[conn.GetID()] = conn`
(map insert: no duplicate keys). -/
def addMember (ms : List String) (cid : String) : List String :=
  if cid ∈ ms then ms else ms ++ [cid]

/-- `UseShunt(conn, name)` from part_002 (lines 354-388), under the
registry write-lock.  Creates the named dispatcher on demand (emitting
`ShuntChannelCreated`), is a no-op when the connection already uses `name`,
removes the connection from its previous shunt, and — when the previous
shunt is non-system and now memberless — deletes it from the registry,
transfers its queued items into the new dispatcher, emits
`ShuntChannelClosed` with `d.name` (the *new* dispatcher's name, exactly as
the source does) and closes it.  Finally binds the connection to the new
dispatcher and records membership. -/
def useShunt (s : SrvState) (cid : String) (name : String) : SrvState :=
  let created := (s.findDispatcher name).isNone
  let d := (s.findDispatcher name).getD { name := name }
  let s1 := if created then (s.setDispatcher name d).addEvent ("ShuntChannelCreated:" ++ name)
    else s
  let finish := fun (st : SrvState) =>
    let st := st.setCurr cid name
    st.setMembers name (addMember (st.members name) cid)
  match s1.currOf cid with
  | none => finish s1
  | some currName =>
    if currName = name then s1
    else
      let s2 := s1.setMembers currName ((s1.members currName).erase cid)
      let s3 :=
        if currName ≠ serverSystemDispatcher ∧ s2.members currName = [] then
          let curr := (s2.findDispatcher currName).getD { name := currName }
          let dNow := (s2.findDispatcher name).getD d
          (((s2.deleteDispatcher currName).setDispatcher name
              (curr.transfer dNow)).addEvent ("ShuntChannelClosed:" ++ name))
        else s2
      finish s3

/-!
## Execution effects of `dispatchMessage` (part_002)

`dispatchMessage` is handler-calling code; its observable behaviour is
modelled as a list of effects in program order.  Panicking handlers are
represented by a boolean: the recovery sink in the deferred function turns
the panic into the `recovered` effect.
-/

/-- Observable effects of one `dispatchMessage` execution. -/
inductive Effect where
  | callbackRun (key : String)
  | callerRun (key : String)
  | recovered
  | antiUnique (key : String)
  | pushCallback (t : MessageType) (key : String)
  | counterDec
  | release
  deriving DecidableEq, Repr

/-- Whether a kind is one of the four async kinds (the kinds excluded from
the synchronous deferred block of `dispatchMessage`). -/
def isAsyncKind (t : MessageType) : Bool :=
  t = MessageType.Async ∨ t = MessageType.UniqueAsync ∨
  t = MessageType.ShuntAsync ∨ t = MessageType.UniqueShuntAsync

/-- Effects of `dispatchMessage` executing a callback-kind message
(part_002 lines 523-548 and 606-607): the body runs `msg.errHandler`;
then the deferred function runs — recovery of a possible panic, then, for
`UniqueAsyncCallback`/`UniqueShuntAsyncCallback`, `dispatcher.antiUnique(msg.name)`
unconditionally, then the counter decrement, then the pool release unless
the server is closed.  The deferred block runs whether or not the callback
panicked. -/
def dispatchCallbackEffects (t : MessageType) (key : String)
    (panics : Bool) (closed : Bool) : List Effect :=
  [Effect.callbackRun key] ++
  (if panics then [Effect.recovered] else []) ++
  (if t = MessageType.UniqueAsyncCallback ∨ t = MessageType.UniqueShuntAsyncCallback
    then [Effect.antiUnique key] else []) ++
  [Effect.counterDec] ++
  (if closed then [] else [Effect.release])

/-- The callback kind synthesized by the async-pool task of
`dispatchMessage` (part_002 lines 583-597): with a nil connection it pushes
`UniqueAsyncCallback` for `UniqueAsync` and `AsyncCallback` otherwise; with
a connection it pushes `UniqueShuntAsyncCallback` for `UniqueShuntAsync`
and `ShuntAsyncCallback` otherwise. -/
def asyncCallbackKind (t : MessageType) (connNil : Bool) : MessageType :=
  if connNil then
    (if t = MessageType.UniqueAsync then MessageType.UniqueAsyncCallback
     else MessageType.AsyncCallback)
  else
    (if t = MessageType.UniqueShuntAsync then MessageType.UniqueShuntAsyncCallback
     else MessageType.ShuntAsyncCallback)

/-- Effects of the async-pool task submitted by `dispatchMessage` for an
async-kind message (part_002 lines 559-605).  If the caller panics, the
deferred recovery calls `antiUnique` for `UniqueAsync`/`UniqueShuntAsync`
and no callback is pushed.  Otherwise, with an `errHandler` present, the
matching callback message is pushed (and the function returns); with no
`errHandler`, `dispatcher.antiUnique(msg.name)` runs unconditionally.
The deferred counter decrement and conditional release always follow. -/
def asyncPhaseEffects (t : MessageType) (key : String) (callerPanics : Bool)
    (hasErrHandler : Bool) (connNil : Bool) (closed : Bool) : List Effect :=
  if callerPanics then
    [Effect.callerRun key, Effect.recovered] ++
    (if t = MessageType.UniqueAsync ∨ t = MessageType.UniqueShuntAsync
      then [Effect.antiUnique key] else []) ++
    [Effect.counterDec] ++ (if closed then [] else [Effect.release])
  else
    [Effect.callerRun key] ++
    (if hasErrHandler then [Effect.pushCallback (asyncCallbackKind t connNil) key]
     else [Effect.antiUnique key]) ++
    [Effect.counterDec] ++ (if closed then [] else [Effect.release])

/-- The complete effect trace of one executed unique-async message: the
async-pool phase, followed — when the caller did not panic and a callback
was pushed — by the execution of the synthesized callback message. -/
def uniqueAsyncLifecycle (t : MessageType) (key : String)
    (callerPanics hasErrHandler connNil cbPanics closed : Bool) : List Effect :=
  asyncPhaseEffects t key callerPanics hasErrHandler connNil closed ++
  (if ¬ callerPanics ∧ hasErrHandler then
    dispatchCallbackEffects (asyncCallbackKind t connNil) key cbPanics closed
  else [])

/-- State effect of `dispatchMessage` executing a
`UniqueAsyncCallback`/`UniqueShuntAsyncCallback` message on dispatcher
`dname`: the deferred block calls `dispatcher.antiUnique(msg.name)` and
decrements the message counter (the worker already dequeued the message). -/
def runUniqueCallback (s : SrvState) (dname : String) (key : String) : SrvState :=
  match s.findDispatcher dname with
  | none => s
  | some d => (s.setDispatcher dname (d.antiUnique key)).decCounter

/-!
## Shutdown (part_002 lines 237-313)
-/

/-- The shutdown-relevant server state: the `closed` flag (Go `uint32`
written by compare-and-swap), the global message counter, and whether the
teardown block (context cancel, ticker/pool release, dispatcher close loop,
HTTP/GRPC stop) has run. -/
structure ShutState where
  closed : Bool := false
  messageCounter : Int := 0
  toreDown : Bool := false
  deriving DecidableEq, Repr

/-- Entry of `shutdown(err)`: `atomic.CompareAndSwapUint32(&srv.closed, 0, 1)`
fails when the flag is already set and the call returns immediately;
otherwise the flag is set and the call proceeds to the drain loop. -/
def shutdownEnter (s : ShutState) : ShutState :=
  if s.closed then s else { s with closed := true }

/-- Whether `shutdownEnter` proceeds past the CAS (true exactly when the
flag was clear). -/
def shutdownProceeds (s : ShutState) : Bool := ¬ s.closed

/-- One iteration of the drain loop `for srv.messageCounter.Load() > 0`:
while the counter is positive the call only logs and sleeps (state
unchanged here; workers decrement the counter concurrently); once the
counter is observed at zero or below, the loop exits and the teardown block
runs. -/
def shutdownPoll (s : ShutState) : ShutState :=
  if s.messageCounter > 0 then s else { s with toreDown := true }

/-!
## The older server implementation (src/server/server.go)
-/

/-- Routing switch of the older `pushMessage` (server.go lines 584-600):
`Packet` goes to the system dispatcher when no `shuntMatcher` was
configured and otherwise falls through to the shunt group;
`ShuntTicker`/`ShuntAsync`/`ShuntAsyncCallback` go to the shunt chosen by
`shuntMatcher(conn)`; `System`/`Async`/`AsyncCallback`/`Error`/`Ticker` go
to the system dispatcher; any other kind leaves the dispatcher nil. -/
inductive RouteTargetV1 where
  | shuntMatcherDispatcher
  | systemDispatcher
  | nilDispatcher
  deriving DecidableEq, Repr

/-- The `switch message.t` of the older `pushMessage`, translated case for
case (`shuntMatcherSet` is `slf.shuntMatcher != nil`). -/
def pushRouteV1 (shuntMatcherSet : Bool) (t : MessageType) : RouteTargetV1 :=
  match t with
  | MessageType.Packet =>
    if ¬ shuntMatcherSet then RouteTargetV1.systemDispatcher
    else RouteTargetV1.shuntMatcherDispatcher
  | MessageType.ShuntTicker | MessageType.ShuntAsync | MessageType.ShuntAsyncCallback =>
    RouteTargetV1.shuntMatcherDispatcher
  | MessageType.System | MessageType.Async | MessageType.AsyncCallback
  | MessageType.Error | MessageType.Ticker => RouteTargetV1.systemDispatcher
  | _ => RouteTargetV1.nilDispatcher

/-- Outcome of the `MessageTypeError` branch of the older `dispatchMessage`
(server.go lines 667-675). -/
inductive ErrorDispatchResult where
  | logPanic
  | shutdownWithError
  | warnUnsupported
  deriving DecidableEq, Repr

/-- The `switch msg.errAction` of the older `dispatchMessage` for
`MessageTypeError`: `MessageErrorActionNone` log-panics with the carried
error; `MessageErrorActionShutdown` calls `slf.shutdown(msg.err)`. -/
def dispatchErrorAction (a : MessageErrorAction) : ErrorDispatchResult :=
  match a with
  | MessageErrorAction.None => ErrorDispatchResult.logPanic
  | MessageErrorAction.Shutdown => ErrorDispatchResult.shutdownWithError

/-!
## Options (src/server/options.go)
-/

/-- Network kinds, from the `Network` constants referenced by options.go
and server.go. -/
inductive Network where
  | Tcp | Tcp4 | Tcp6 | Udp | Udp4 | Udp6 | Unix | Http | Websocket | Kcp | Grpc | None
  deriving DecidableEq, Repr

/-- The option-relevant server fields set by `WithWebsocketCompression`. -/
structure OptState where
  network : Network
  websocketCompression : Int := 0
  deriving DecidableEq, Repr

/-- `WithWebsocketCompression(level)` from options.go (lines 80-90): a
no-op on non-websocket servers; panics (`Option.none` here) when
`!(-2 <= level && level <= 9)`; otherwise stores the level. -/
def withWebsocketCompression (level : Int) (srv : OptState) : Option OptState :=
  if srv.network ≠ Network.Websocket then some srv
  else if ¬ (-2 ≤ level ∧ level ≤ 9) then none
  else some { srv with websocketCompression := level }

/-!
## Message statistics (part_002 lines 743-781)
-/

/-- The statistics-relevant runtime state: whether statistics are enabled
(`messageStatisticsLock != nil`) and the ring of bucket counters, index 0
being the current period. -/
structure StatState where
  enabled : Bool
  buckets : List Int
  deriving DecidableEq, Repr

/-- `GetDurationMessageCountByOffset(offset)` from part_002 (lines
748-762): returns 0 with statistics disabled; returns 0 when
`offset >= len(messageStatistics)-1`; otherwise evaluates
`messageStatistics[offset]` — a Go slice index, which panics (`none`) for a
negative offset and reads the bucket otherwise. -/
def getDurationMessageCountByOffset (s : StatState) (offset : Int) : Option Int :=
  if ¬ s.enabled then some 0
  else if offset ≥ (s.buckets.length : Int) - 1 then some 0
  else if offset < 0 then none
  else
    match s.buckets.get? offset.toNat with
    | none => none
    | some v => some v

/-!
## Gateway re-framing (src/server/conn.go `newGatewayConn`)

`newGatewayConn` installs a write hook that builds
`GP{C: connId, WT: packet.WebsocketType, D: packet.Data, T: time.Now().UnixNano()}`,
serializes it with `super.MarshalJSON` and appends the terminator byte
`0xff`.  The `GP` struct declaration and `super.MarshalJSON` are not in the
snapshot; the JSON encoding below is modelled from the spec (§6 "Gateway
re-framing"): a JSON object with fields `C` (string), `WT` (integer), `D`
(byte array, which Go's JSON encoder emits as standard base64), `T`
(integer), fields in struct order.  Strings are emitted as UTF-8 with
quote and backslash escaped.  Bytes are `Nat` values below 256.
-/

/-- The gateway frame record.  Modelled from the spec: fields `C` (origin
connection id, a string, given as its list of unicode scalars), `WT`
(frame type, integer), `D` (payload bytes), `T` (unix-nanos timestamp,
integer). -/
structure GP where
  C : List Char
  WT : Int
  D : List Nat
  T : Int

/-- UTF-8 encoding of one unicode scalar value. -/
def utf8EncodeChar (c : Char) : List Nat :=
  if c.toNat < 128 then [c.toNat]
  else if c.toNat < 2048 then [192 + c.toNat / 64, 128 + c.toNat % 64]
  else if c.toNat < 65536 then
    [224 + c.toNat / 4096, 128 + c.toNat / 64 % 64, 128 + c.toNat % 64]
  else
    [240 + c.toNat / 262144, 128 + c.toNat / 4096 % 64, 128 + c.toNat / 64 % 64,
     128 + c.toNat % 64]

/-- UTF-8 encoding of a scalar sequence. -/
def utf8Bytes (cs : List Char) : List Nat := cs.flatMap utf8EncodeChar

/-- JSON string escaping of one character: quote (34) and backslash (92)
are emitted as two-byte escapes, every other scalar as its UTF-8 bytes. -/
def escapeChar (c : Char) : List Nat :=
  if c.toNat = 34 then [92, 34]
  else if c.toNat = 92 then [92, 92]
  else utf8EncodeChar c

/-- JSON string escaping of a scalar sequence. -/
def escapeString (cs : List Char) : List Nat := cs.flatMap escapeChar

/-- ASCII decimal digits of a natural number, most significant first
(`0` prints as `"0"`). -/
def natDigitBytes (n : Nat) : List Nat :=
  if n = 0 then [48] else ((Nat.digits 10 n).map (fun d => 48 + d)).reverse

/-- ASCII decimal rendering of an integer (leading `-` when negative). -/
def intBytes (i : Int) : List Nat :=
  if i < 0 then 45 :: natDigitBytes i.natAbs else natDigitBytes i.toNat

/-- The base64 alphabet (RFC 4648) as ASCII codes. -/
def b64Char (k : Nat) : Nat :=
  if k < 26 then 65 + k
  else if k < 52 then 97 + (k - 26)
  else if k < 62 then 48 + (k - 52)
  else if k = 62 then 43
  else 47

/-- Value of a base64 alphabet byte. -/
def b64Val (c : Nat) : Nat :=
  if 65 ≤ c ∧ c ≤ 90 then c - 65
  else if 97 ≤ c ∧ c ≤ 122 then c - 97 + 26
  else if 48 ≤ c ∧ c ≤ 57 then c - 48 + 52
  else if c = 43 then 62
  else 63

/-- Standard base64 encoding with padding (`=` is 61), as Go
`encoding/base64.StdEncoding` produces for a `[]byte` JSON field. -/
def base64Encode : List Nat → List Nat
  | [] => []
  | [b1] => [b64Char (b1 / 4), b64Char (b1 % 4 * 16), 61, 61]
  | [b1, b2] => [b64Char (b1 / 4), b64Char (b1 % 4 * 16 + b2 / 16), b64Char (b2 % 16 * 4), 61]
  | b1 :: b2 :: b3 :: rest =>
    b64Char (b1 / 4) :: b64Char (b1 % 4 * 16 + b2 / 16) ::
      b64Char (b2 % 16 * 4 + b3 / 64) :: b64Char (b3 % 64) :: base64Encode rest

/-- Base64 decoding of a padded encoding. -/
def base64Decode : List Nat → Option (List Nat)
  | [] => some []
  | c1 :: c2 :: c3 :: c4 :: rest =>
    if c3 = 61 ∧ c4 = 61 ∧ rest = [] then
      some [b64Val c1 * 4 + b64Val c2 / 16]
    else if c4 = 61 ∧ rest = [] then
      some [b64Val c1 * 4 + b64Val c2 / 16, b64Val c2 % 16 * 16 + b64Val c3 / 4]
    else
      match base64Decode rest with
      | some bs => some ((b64Val c1 * 4 + b64Val c2 / 16) ::
          (b64Val c2 % 16 * 16 + b64Val c3 / 4) :: (b64Val c3 % 4 * 64 + b64Val c4) :: bs)
      | none => none
  | _ => none

/-- `{"C":"` -/
def litOpenC : List Nat := [123, 34, 67, 34, 58, 34]
/-- `,"WT":` (the string's closing quote is consumed by the string parser) -/
def litWT : List Nat := [44, 34, 87, 84, 34, 58]
/-- `,"D":"` -/
def litD : List Nat := [44, 34, 68, 34, 58, 34]
/-- `","T":` -/
def litT : List Nat := [34, 44, 34, 84, 34, 58]

/-- The serialized `GP` object: JSON with fields in struct order
`C`, `WT`, `D`, `T`. -/
def marshalGP (gp : GP) : List Nat :=
  litOpenC ++ escapeString gp.C ++ [34] ++
  litWT ++ intBytes gp.WT ++
  litD ++ base64Encode gp.D ++
  litT ++ intBytes gp.T ++ [125]

/-- The wire frame built by the gateway write hook
(`packet.Data = append(pd, 0xff)` in `newGatewayConn`): the serialized
object followed by the terminator byte 255. -/
def gatewayFrame (gp : GP) : List Nat := marshalGP gp ++ [255]

/-- Expect a literal byte sequence, returning the remainder. -/
def expectLit : List Nat → List Nat → Option (List Nat)
  | [], bs => some bs
  | _ :: _, [] => none
  | p :: ps, b :: bs => if p = b then expectLit ps bs else none

/-- Parse a JSON string body up to (and consuming) the closing quote,
undoing the two-byte escapes; returns the raw string bytes and the
remainder. -/
def parseJString : List Nat → Option (List Nat × List Nat)
  | [] => none
  | b :: rest =>
    if b = 34 then some ([], rest)
    else if b = 92 then
      match rest with
      | [] => none
      | e :: rest2 =>
        match parseJString rest2 with
        | some (s, r) => some (e :: s, r)
        | none => none
    else
      match parseJString rest with
      | some (s, r) => some (b :: s, r)
      | none => none

/-- Is an ASCII decimal digit. -/
def isDigitByte (b : Nat) : Bool := 48 ≤ b ∧ b ≤ 57

/-- Value of a most-significant-first ASCII digit list. -/
def digitsVal (ds : List Nat) : Nat :=
  Nat.ofDigits 10 ((ds.map (fun b => b - 48)).reverse)

/-- Parse a nonempty run of decimal digits. -/
def parseNatBytes (bs : List Nat) : Option (Nat × List Nat) :=
  let ds := bs.takeWhile isDigitByte
  if ds.isEmpty then none
  else some (digitsVal ds, bs.drop ds.length)

/-- Parse a JSON integer (optional leading minus). -/
def parseIntBytes (bs : List Nat) : Option (Int × List Nat) :=
  match bs with
  | [] => none
  | b :: rest =>
    if b = 45 then (parseNatBytes rest).map (fun p => (-(p.1 : Int), p.2))
    else (parseNatBytes (b :: rest)).map (fun p => ((p.1 : Int), p.2))

/-- Parse a gateway frame, recovering the `C` field (as its raw UTF-8
bytes), the `WT` field and the decoded `D` payload. -/
def parseGP (bs : List Nat) : Option (List Nat × Int × List Nat) := do
  let r1 ← expectLit litOpenC bs
  let (c, r2) ← parseJString r1
  let r3 ← expectLit litWT r2
  let (wt, r4) ← parseIntBytes r3
  let r5 ← expectLit litD r4
  let ds := r5.takeWhile (fun b => b ≠ 34)
  let d ← base64Decode ds
  pure (c, wt, d)

/-- System dispatcher as created at boot (`onMessageSystemInit`). -/
def sys0 : Dispatcher := { name := serverSystemDispatcher }

/-- A freshly booted registry: only the system dispatcher exists. -/
def boot0 : SrvState :=
  { dispatchers := fun n => if n = serverSystemDispatcher then some sys0 else none }

/-!
## Helper lemmas
-/

namespace SrvState

@[simp] theorem findDispatcher_setDispatcher_self (s : SrvState) (n : String) (d : Dispatcher) :
    (s.setDispatcher n d).findDispatcher n = some d := by
  simp [findDispatcher, setDispatcher]

theorem findDispatcher_setDispatcher_ne (s : SrvState) (n m : String) (d : Dispatcher)
    (h : m ≠ n) : (s.setDispatcher n d).findDispatcher m = s.findDispatcher m := by
  simp [findDispatcher, setDispatcher, h]

@[simp] theorem findDispatcher_deleteDispatcher_self (s : SrvState) (n : String) :
    (s.deleteDispatcher n).findDispatcher n = none := by
  simp [findDispatcher, deleteDispatcher]

theorem findDispatcher_deleteDispatcher_ne (s : SrvState) (n m : String) (h : m ≠ n) :
    (s.deleteDispatcher n).findDispatcher m = s.findDispatcher m := by
  simp [findDispatcher, deleteDispatcher, h]

@[simp] theorem currOf_setMembers (s : SrvState) (n : String) (ms : List String) (c : String) :
    (s.setMembers n ms).currOf c = s.currOf c := rfl

@[simp] theorem currOf_setDispatcher (s : SrvState) (n : String) (d : Dispatcher) (c : String) :
    (s.setDispatcher n d).currOf c = s.currOf c := rfl

@[simp] theorem currOf_deleteDispatcher (s : SrvState) (n : String) (c : String) :
    (s.deleteDispatcher n).currOf c = s.currOf c := rfl

@[simp] theorem findDispatcher_setMembers (s : SrvState) (n : String) (ms : List String) (m : String) :
    (s.setMembers n ms).findDispatcher m = s.findDispatcher m := rfl

@[simp] theorem findDispatcher_setCurr (s : SrvState) (c n m : String) :
    (s.setCurr c n).findDispatcher m = s.findDispatcher m := rfl

@[simp] theorem currOf_setCurr_self (s : SrvState) (c n : String) :
    (s.setCurr c n).currOf c = some n := by
  simp [currOf, setCurr]

@[simp] theorem findDispatcher_addEvent (s : SrvState) (e : String) (m : String) :
    (s.addEvent e).findDispatcher m = s.findDispatcher m := rfl

@[simp] theorem currOf_addEvent (s : SrvState) (e : String) (c : String) :
    (s.addEvent e).currOf c = s.currOf c := rfl

@[simp] theorem members_addEvent (s : SrvState) (e : String) (n : String) :
    (s.addEvent e).members n = s.members n := rfl

@[simp] theorem members_setDispatcher (s : SrvState) (n : String) (d : Dispatcher) (m : String) :
    (s.setDispatcher n d).members m = s.members m := rfl

@[simp] theorem members_deleteDispatcher (s : SrvState) (n m : String) :
    (s.deleteDispatcher n).members m = s.members m := rfl

@[simp] theorem members_setCurr (s : SrvState) (c n m : String) :
    (s.setCurr c n).members m = s.members m := rfl

@[simp] theorem members_setMembers_self (s : SrvState) (n : String) (ms : List String) :
    (s.setMembers n ms).members n = ms := by
  simp [members, setMembers]

theorem members_setMembers_ne (s : SrvState) (n m : String) (ms : List String) (h : m ≠ n) :
    (s.setMembers n ms).members m = s.members m := by
  simp [members, setMembers, h]

@[simp] theorem findDispatcher_deleteCurr (s : SrvState) (c m : String) :
    (s.deleteCurr c).findDispatcher m = s.findDispatcher m := rfl

@[simp] theorem findDispatcher_addReleased (s : SrvState) (m0 : Message) (m : String) :
    (s.addReleased m0).findDispatcher m = s.findDispatcher m := rfl

@[simp] theorem findDispatcher_incCounter (s : SrvState) (m : String) :
    s.incCounter.findDispatcher m = s.findDispatcher m := rfl

@[simp] theorem findDispatcher_decCounter (s : SrvState) (m : String) :
    s.decCounter.findDispatcher m = s.findDispatcher m := rfl

@[simp] theorem currOf_addReleased (s : SrvState) (m0 : Message) (c : String) :
    (s.addReleased m0).currOf c = s.currOf c := rfl

@[simp] theorem currOf_incCounter (s : SrvState) (c : String) :
    s.incCounter.currOf c = s.currOf c := rfl

@[simp] theorem currOf_decCounter (s : SrvState) (c : String) :
    s.decCounter.currOf c = s.currOf c := rfl

@[simp] theorem released_addReleased (s : SrvState) (m : Message) :
    (s.addReleased m).released = m :: s.released := rfl

@[simp] theorem released_setDispatcher (s : SrvState) (n : String) (d : Dispatcher) :
    (s.setDispatcher n d).released = s.released := rfl

@[simp] theorem released_incCounter (s : SrvState) :
    s.incCounter.released = s.released := rfl

@[simp] theorem messageCounter_addReleased (s : SrvState) (m : Message) :
    (s.addReleased m).messageCounter = s.messageCounter := rfl

@[simp] theorem messageCounter_setDispatcher (s : SrvState) (n : String) (d : Dispatcher) :
    (s.setDispatcher n d).messageCounter = s.messageCounter := rfl

@[simp] theorem messageCounter_incCounter (s : SrvState) :
    s.incCounter.messageCounter = s.messageCounter + 1 := rfl

@[simp] theorem queueOf_eq (s : SrvState) (n : String) :
    s.queueOf n = ((s.findDispatcher n).map Dispatcher.queue).getD [] := rfl

@[simp] theorem uniquesOf_eq (s : SrvState) (n : String) :
    s.uniquesOf n = ((s.findDispatcher n).map Dispatcher.uniques).getD [] := rfl

end SrvState

@[simp] theorem Dispatcher.queue_antiUnique (d : Dispatcher) (k : String) :
    (d.antiUnique k).queue = d.queue := rfl

@[simp] theorem Dispatcher.uniques_antiUnique (d : Dispatcher) (k : String) :
    (d.antiUnique k).uniques = d.uniques.erase k := rfl

@[simp] theorem Dispatcher.queue_put (d : Dispatcher) (m : Message) :
    (d.put m).queue = d.queue ++ [m] := rfl

@[simp] theorem Dispatcher.uniques_put (d : Dispatcher) (m : Message) :
    (d.put m).uniques = d.uniques := rfl

@[simp] theorem Dispatcher.queue_transfer (d other : Dispatcher) :
    (d.transfer other).queue = other.queue ++ d.queue := rfl

theorem Dispatcher.unique_mem (d : Dispatcher) (k : String) (h : k ∈ d.uniques) :
    d.unique k = (true, d) := by
  simp [Dispatcher.unique, h]

theorem Dispatcher.unique_not_mem (d : Dispatcher) (k : String) (h : k ∉ d.uniques) :
    d.unique k = (false, { d with uniques := k :: d.uniques }) := by
  simp [Dispatcher.unique, h]

/-!
## C9 — websocket compression level validation
-/

/-- C9: for a `NetworkWebsocket` server, `WithWebsocketCompression(level)`
accepts exactly the levels `-2 ≤ level ≤ 9` (storing the level), and
panics for every level outside that inclusive range. -/
theorem withWebsocketCompression_range (srv : OptState) (level : Int)
    (h : srv.network = Network.Websocket) :
    (withWebsocketCompression level srv
        = some { srv with websocketCompression := level } ↔ -2 ≤ level ∧ level ≤ 9) ∧
    (withWebsocketCompression level srv = none ↔ ¬ (-2 ≤ level ∧ level ≤ 9)) := by
  unfold withWebsocketCompression
  rw [h]
  simp only [ne_eq, not_true_eq_false, if_false, ite_not]
  constructor
  · constructor
    · intro hres
      by_contra hlv
      rw [if_neg] at hres
      · exact Option.noConfusion hres
      · exact hlv
    · intro hlv
      rw [if_pos hlv]
  · constructor
    · intro hres
      intro hlv
      rw [if_pos hlv] at hres
      exact Option.noConfusion hres
    · intro hlv
      rw [if_neg hlv]

/-- C9 witness: both endpoints `-2` and `9` are accepted and stored; `10`
panics. -/
theorem withWebsocketCompression_range_witness :
    (withWebsocketCompression (-2) { network := Network.Websocket }
        = some { network := Network.Websocket, websocketCompression := -2 } ↔
          -2 ≤ (-2 : Int) ∧ (-2 : Int) ≤ 9) ∧
    (withWebsocketCompression 9 { network := Network.Websocket }
        = some { network := Network.Websocket, websocketCompression := 9 } ↔
          -2 ≤ (9 : Int) ∧ (9 : Int) ≤ 9) ∧
    (withWebsocketCompression 10 { network := Network.Websocket } = none ↔
          ¬ (-2 ≤ (10 : Int) ∧ (10 : Int) ≤ 9)) :=
  ⟨(withWebsocketCompression_range { network := Network.Websocket } (-2) rfl).1,
   (withWebsocketCompression_range { network := Network.Websocket } 9 rfl).1,
   (withWebsocketCompression_range { network := Network.Websocket } 10 rfl).2⟩

/-!
## C10 — statistics offset accessor
-/

/-- C10: with statistics enabled (and the ring seeded, as
`startMessageStatistics` does at boot), `GetDurationMessageCountByOffset`
returns 0 for every offset at or beyond `len-1` — the oldest retained
bucket is never readable — and panics (`none`) for every negative offset
because the slice index is unguarded below zero. -/
theorem getDurationMessageCountByOffset_guard (s : StatState) (offset : Int)
    (hen : s.enabled = true) (hlen : 1 ≤ s.buckets.length) :
    (offset ≥ (s.buckets.length : Int) - 1 →
      getDurationMessageCountByOffset s offset = some 0) ∧
    (offset < 0 → getDurationMessageCountByOffset s offset = none) := by
  unfold getDurationMessageCountByOffset
  rw [hen]
  constructor
  · intro hoff
    simp only [not_true_eq_false, if_false, ge_iff_le]
    rw [if_pos hoff]
  · intro hoff
    have hge : ¬ (offset ≥ (s.buckets.length : Int) - 1) := by omega
    simp only [not_true_eq_false, if_false, ge_iff_le]
    rw [if_neg hge, if_pos hoff]

/-- C10 witness: with one seeded bucket holding 5, offset 0 (= len−1)
reads 0 and offset −1 panics. -/
theorem getDurationMessageCountByOffset_guard_witness :
    getDurationMessageCountByOffset ⟨true, [5]⟩ 0 = some 0 ∧
    getDurationMessageCountByOffset ⟨true, [5]⟩ (-1) = none :=
  ⟨(getDurationMessageCountByOffset_guard ⟨true, [5]⟩ 0 rfl (by decide)).1 (by decide),
   (getDurationMessageCountByOffset_guard ⟨true, [5]⟩ (-1) rfl (by decide)).2 (by decide)⟩

/-!
## C7 — Error messages in the older server implementation
-/

/-- The `MessageTypeError` branch of the older `dispatchMessage`, with the
carried error (`msg.err`, represented as a string). -/
def dispatchErrorMessage (a : MessageErrorAction) (err : String) :
    ErrorDispatchResult × String :=
  match a with
  | MessageErrorAction.None => (ErrorDispatchResult.logPanic, err)
  | MessageErrorAction.Shutdown => (ErrorDispatchResult.shutdownWithError, err)

/-- C7: an `Error` message is routed to the system dispatcher (older
`pushMessage`, with or without a configured `shuntMatcher`), and its
dispatch is decided by the embedded action: `MessageErrorActionNone`
log-panics with the carried error, `MessageErrorActionShutdown` initiates
shutdown passing the carried error. -/
theorem errorMessage_routing_dispatch (shuntMatcherSet : Bool) (m : Message) (err : String)
    (h : m.t = MessageType.Error) :
    pushRouteV1 shuntMatcherSet m.t = RouteTargetV1.systemDispatcher ∧
    (m.errAction = MessageErrorAction.None →
      dispatchErrorMessage m.errAction err = (ErrorDispatchResult.logPanic, err)) ∧
    (m.errAction = MessageErrorAction.Shutdown →
      dispatchErrorMessage m.errAction err = (ErrorDispatchResult.shutdownWithError, err)) := by
  refine ⟨?_, ?_, ?_⟩
  · rw [h]
    cases shuntMatcherSet <;> rfl
  · intro ha
    rw [ha]
    rfl
  · intro ha
    rw [ha]
    rfl

/-- C7 witness: a concrete `Error` message with each action. -/
theorem errorMessage_routing_dispatch_witness :
    pushRouteV1 false (Message.mk MessageType.Error none "" MessageErrorAction.None).t
        = RouteTargetV1.systemDispatcher ∧
    dispatchErrorMessage MessageErrorAction.None "boom"
        = (ErrorDispatchResult.logPanic, "boom") ∧
    dispatchErrorMessage MessageErrorAction.Shutdown "boom"
        = (ErrorDispatchResult.shutdownWithError, "boom") := by
  have h := errorMessage_routing_dispatch false
    (Message.mk MessageType.Error none "" MessageErrorAction.None) "boom" rfl
  have h2 := errorMessage_routing_dispatch false
    (Message.mk MessageType.Error none "" MessageErrorAction.Shutdown) "boom" rfl
  exact ⟨h.1, h.2.1 rfl, h2.2.2 rfl⟩

/-!
## C6 — shutdown: CAS idempotence and counter drain
-/

/-- C6: `shutdown(err)` is idempotent — when the `closed` flag is already
set, the compare-and-swap fails and the call returns without any teardown —
and a first call performs teardown only once the polled in-flight message
counter has drained to (or below) zero: a poll that observes a positive
counter leaves the state untouched, and a poll that performs teardown can
only have observed a non-positive counter, which (the counter never being
negative) is zero. -/
theorem shutdown_idempotent_and_drain (s t : ShutState)
    (hclosed : s.closed = true) (ht : t.toreDown = false) :
    shutdownEnter s = s ∧
    shutdownProceeds s = false ∧
    (t.messageCounter > 0 → shutdownPoll t = t) ∧
    ((shutdownPoll t).toreDown = true → t.messageCounter ≤ 0) ∧
    (0 ≤ t.messageCounter → (shutdownPoll t).toreDown = true → t.messageCounter = 0) := by
  refine ⟨?_, ?_, ?_, ?_, ?_⟩
  · unfold shutdownEnter
    rw [hclosed]
    rfl
  · unfold shutdownProceeds
    rw [hclosed]
    rfl
  · intro hc
    unfold shutdownPoll
    rw [if_pos hc]
  · intro htd
    by_contra hc
    unfold shutdownPoll at htd
    rw [if_pos (by omega)] at htd
    rw [ht] at htd
    exact Bool.noConfusion htd
  · intro hge htd
    by_contra hc
    unfold shutdownPoll at htd
    rw [if_pos (by omega)] at htd
    rw [ht] at htd
    exact Bool.noConfusion htd

/-- C6 witness: a second call on a closed server is a no-op; a poll at
counter 3 does nothing; teardown at counter 0. -/
theorem shutdown_idempotent_and_drain_witness :
    shutdownEnter { closed := true, messageCounter := 0 } = { closed := true, messageCounter := 0 } ∧
    shutdownProceeds { closed := true, messageCounter := 0 } = false ∧
    shutdownPoll { closed := false, messageCounter := 3 } = { closed := false, messageCounter := 3 } := by
  have h := shutdown_idempotent_and_drain
    { closed := true, messageCounter := 0 }
    { closed := false, messageCounter := 3 } rfl rfl
  exact ⟨h.1, h.2.1, h.2.2.1 (by decide)⟩

/-!
## C5 — the ShuntChannelClosed event emitted during migration
-/

/-- C5 (code bug): when `UseShunt` tears down the emptied previous shunt
`"A"` while moving connection `"c"` to `"B"`, the emitted
`ShuntChannelClosed` event carries `"B"` — `UseShunt` passes `d.name`, the
*new* dispatcher, to `OnShuntChannelClosedEvent` — not the closed shunt
`"A"` that the spec promises (compare `releaseDispatcher`, which passes the
closing dispatcher's own name). -/
theorem useShunt_closed_event_new_name :
    (useShunt (useShunt boot0 "c" "A") "c" "B").events
        = ["ShuntChannelCreated:A", "ShuntChannelCreated:B", "ShuntChannelClosed:B"] ∧
    "ShuntChannelClosed:A" ∉ (useShunt (useShunt boot0 "c" "A") "c" "B").events := by
  have hev : (useShunt (useShunt boot0 "c" "A") "c" "B").events
      = ["ShuntChannelCreated:A", "ShuntChannelCreated:B", "ShuntChannelClosed:B"] := by
    rfl
  constructor
  · exact hev
  · rw [hev]
    simp

/-!
## C3 — kind-based routing in the newer `pushMessage`
-/

/-- C3 counterexample: the claim says an `Error` message goes to the system
dispatcher, but in part_002's `pushMessage` the `switch` lists
`MessageTypeError` in neither case group, so the Go `dispatcher` variable
stays nil and the function returns: on a freshly booted registry the state
is completely unchanged — nothing is enqueued on the system dispatcher. -/
theorem pushMessage_error_routing_counterexample :
    pushMessage (fun _ => true) boot0 { t := MessageType.Error } = boot0 ∧
    (pushMessage (fun _ => true) boot0 { t := MessageType.Error }).queueOf
        serverSystemDispatcher = [] ∧
    pushRoute MessageType.Error ≠ RouteTarget.systemDispatcher := by
  refine ⟨rfl, rfl, ?_⟩
  intro h
  exact RouteTarget.noConfusion h

/-- C3 amended: `pushMessage` selects the dispatcher solely by kind —
`Packet`, `Shunt` and every Shunt-prefixed kind resolve through
`getConnDispatcher` (the connection's current dispatcher, falling back to
the system dispatcher when the connection is nil or has no membership);
`System`, `Async`, `AsyncCallback`, `UniqueAsync`, `UniqueAsyncCallback`
and `Ticker` go to the system dispatcher; `Error` matches neither case
group and is dropped with a nil dispatcher. -/
theorem pushMessage_routing_amended (s : SrvState) (cid : String) (t : MessageType) :
    (pushRoute t = RouteTarget.connDispatcher ↔
      t ∈ [MessageType.Packet, MessageType.Shunt, MessageType.ShuntTicker,
           MessageType.ShuntAsync, MessageType.ShuntAsyncCallback,
           MessageType.UniqueShuntAsync, MessageType.UniqueShuntAsyncCallback]) ∧
    (pushRoute t = RouteTarget.systemDispatcher ↔
      t ∈ [MessageType.System, MessageType.Async, MessageType.AsyncCallback,
           MessageType.UniqueAsync, MessageType.UniqueAsyncCallback, MessageType.Ticker]) ∧
    (pushRoute t = RouteTarget.nilDispatcher ↔ t = MessageType.Error) ∧
    getConnDispatcher s none = serverSystemDispatcher ∧
    (s.currOf cid = none → getConnDispatcher s (some cid) = serverSystemDispatcher) ∧
    (∀ n, s.currOf cid = some n → getConnDispatcher s (some cid) = n) := by
  refine ⟨?_, ?_, ?_, rfl, ?_, ?_⟩
  · cases t <;> simp [pushRoute]
  · cases t <;> simp [pushRoute]
  · cases t <;> simp [pushRoute]
  · intro h
    simp [getConnDispatcher, h]
  · intro n h
    simp [getConnDispatcher, h]

/-- C3 witness: `Packet` routes through the connection shunt lookup; a
connection with no membership falls back to the system dispatcher; `Async`
routes to the system dispatcher. -/
theorem pushMessage_routing_amended_witness :
    pushRoute MessageType.Packet = RouteTarget.connDispatcher ∧
    getConnDispatcher boot0 none = serverSystemDispatcher ∧
    getConnDispatcher boot0 (some "x") = serverSystemDispatcher ∧
    pushRoute MessageType.Async = RouteTarget.systemDispatcher := by
  have h := pushMessage_routing_amended boot0 "x" MessageType.Packet
  have h2 := pushMessage_routing_amended boot0 "x" MessageType.Async
  exact ⟨h.1.mpr (by decide), h.2.2.2.1, h.2.2.2.2.1 rfl, h2.2.1.mpr (by decide)⟩

/-!
## C4 — shunt migration transfers the old queue
-/

/-- C4: when `UseShunt(conn, n2)` moves a connection off a non-system
shunt `n1` that is left with no remaining members, every message still
queued on `n1`'s dispatcher is transferred — in order — into `n2`'s
dispatcher before `n1`'s dispatcher is closed and removed; consequently a
message `m2` enqueued on `n2` after the migration sits behind every message
that was queued on `n1` before the migration, and per-dispatcher FIFO
executes the old `n1` messages first. -/
theorem useShunt_migration_transfer (s : SrvState) (cid n1 n2 : String) (d1 : Dispatcher)
    (hcur : s.currOf cid = some n1)
    (hne : n1 ≠ n2)
    (hsys : n1 ≠ serverSystemDispatcher)
    (hlast : (s.members n1).erase cid = [])
    (hd1 : s.findDispatcher n1 = some d1) :
    (useShunt s cid n2).queueOf n2 = s.queueOf n2 ++ d1.queue ∧
    (useShunt s cid n2).findDispatcher n1 = none ∧
    (∀ (m2 : Message) (d2 : Dispatcher), (useShunt s cid n2).findDispatcher n2 = some d2 →
      ∀ m1 ∈ d1.queue, ∃ pre, (d2.put m2).queue = pre ++ [m2] ∧ m1 ∈ pre) := by
  have hne2 : n2 ≠ n1 := fun h => hne h.symm
  have key : (useShunt s cid n2).findDispatcher n2
        = some (d1.transfer ((s.findDispatcher n2).getD { name := n2 })) ∧
      (useShunt s cid n2).findDispatcher n1 = none := by
    cases hfd2 : s.findDispatcher n2 with
    | none =>
      simp [useShunt, hfd2, hcur, hne, hsys, hlast, hne2, hd1,
        SrvState.findDispatcher_setDispatcher_ne, SrvState.findDispatcher_deleteDispatcher_ne]
    | some dx =>
      simp [useShunt, hfd2, hcur, hne, hsys, hlast, hne2, hd1,
        SrvState.findDispatcher_setDispatcher_ne, SrvState.findDispatcher_deleteDispatcher_ne]
  refine ⟨?_, key.2, ?_⟩
  · rw [SrvState.queueOf_eq, key.1]
    cases hfd2 : s.findDispatcher n2 <;> simp [hfd2]
  · intro m2 d2 hd2 m1 hm1
    rw [key.1] at hd2
    cases hd2
    refine ⟨(Option.getD (s.findDispatcher n2) { name := n2 }).queue ++ d1.queue, by simp, ?_⟩
    exact List.mem_append_right _ hm1

/-- C4 witness: connection `"c"` alone on `"A"` with one queued packet;
`UseShunt(c, "B")` carries the packet into `"B"`'s queue and removes
`"A"`. -/
theorem useShunt_migration_transfer_witness :
    ((useShunt (useShunt boot0 "c" "A") "c" "B").queueOf "B"
      = (useShunt boot0 "c" "A").queueOf "B"
        ++ (Dispatcher.mk "A" [] []).queue) ∧
    (useShunt (useShunt boot0 "c" "A") "c" "B").findDispatcher "A" = none := by
  have h := useShunt_migration_transfer (useShunt boot0 "c" "A") "c" "A" "B"
    (Dispatcher.mk "A" [] []) rfl (by decide) (by decide) rfl rfl
  exact ⟨h.1, h.2.1⟩

/-!
## C1 — unique-async coalescing
-/

/-- `getConnDispatcher` only reads `currDispatcher`. -/
theorem getConnDispatcher_congr (s s' : SrvState) (c : Option String)
    (h : ∀ x, s'.currOf x = s.currOf x) :
    getConnDispatcher s' c = getConnDispatcher s c := by
  cases c with
  | none => rfl
  | some cid =>
    show (match s'.currOf cid with
      | some name => name
      | none => serverSystemDispatcher) =
      (match s.currOf cid with
      | some name => name
      | none => serverSystemDispatcher)
    rw [h cid]

/-- C1: while a unique-async message's key is in flight on its target
dispatcher, `pushMessage` drops a message with that key — the queue and
counter are untouched and the record is released to the pool; when the key
is not in flight the message is accepted and enqueued; and once the final
callback for the key has executed (`dispatchMessage`'s deferred
`antiUnique`, `runUniqueCallback` here), a subsequent unique-async with the
same key is accepted and enqueued again. -/
theorem uniqueAsync_coalescing (execBefore : Message → Bool) (s : SrvState) (m : Message)
    (d : Dispatcher)
    (hk : m.t = MessageType.UniqueAsync ∨ m.t = MessageType.UniqueShuntAsync)
    (he : execBefore m = true)
    (hd : s.findDispatcher (pushTargetName s m) = some d) :
    (m.name ∈ d.uniques →
      (pushMessage execBefore s m).queueOf (pushTargetName s m)
          = s.queueOf (pushTargetName s m) ∧
      (pushMessage execBefore s m).released = m :: s.released ∧
      (pushMessage execBefore s m).messageCounter = s.messageCounter) ∧
    (m.name ∉ d.uniques →
      (pushMessage execBefore s m).queueOf (pushTargetName s m)
          = s.queueOf (pushTargetName s m) ++ [m] ∧
      (pushMessage execBefore s m).messageCounter = s.messageCounter + 1) ∧
    (∀ m2 : Message, d.uniques.Nodup →
      m2.t = m.t → m2.name = m.name → m2.conn = m.conn → execBefore m2 = true →
      (pushMessage execBefore (runUniqueCallback s (pushTargetName s m) m.name) m2).queueOf
          (pushTargetName s m)
        = (runUniqueCallback s (pushTargetName s m) m.name).queueOf (pushTargetName s m)
            ++ [m2]) := by
  have hnotnil : ¬ (pushRoute m.t = RouteTarget.nilDispatcher) := by
    rcases hk with hk | hk <;> rw [hk] <;> intro hcon <;> exact RouteTarget.noConfusion hcon
  have huniq : m.t = MessageType.UniqueShuntAsync ∨ m.t = MessageType.UniqueAsync := hk.symm
  refine ⟨?_, ?_, ?_⟩
  · intro hmem
    simp only [pushMessage, he, not_true_eq_false, if_false, Bool.not_true]
    rw [if_neg hnotnil, hd]
    simp only [huniq, if_true, Dispatcher.unique_mem d _ hmem]
    simp [hd]
  · intro hmem
    simp only [pushMessage, he, not_true_eq_false, if_false, Bool.not_true]
    rw [if_neg hnotnil, hd]
    simp only [huniq, if_true, Dispatcher.unique_not_mem d _ hmem]
    simp [hd]
  · intro m2 hnodup ht hn hc he2
    have hcb : runUniqueCallback s (pushTargetName s m) m.name
        = (s.setDispatcher (pushTargetName s m) (d.antiUnique m.name)).decCounter := by
      unfold runUniqueCallback
      rw [hd]
    have hcurr : ∀ x, (runUniqueCallback s (pushTargetName s m) m.name).currOf x
        = s.currOf x := by
      intro x
      rw [hcb]
      simp
    have htarget : pushTargetName (runUniqueCallback s (pushTargetName s m) m.name) m2
        = pushTargetName s m := by
      have e1 : pushTargetName (runUniqueCallback s (pushTargetName s m) m.name) m2
          = if pushRoute m2.t = RouteTarget.connDispatcher
              then getConnDispatcher (runUniqueCallback s (pushTargetName s m) m.name) m2.conn
              else serverSystemDispatcher := rfl
      rw [e1, ht, hc, getConnDispatcher_congr s _ m.conn hcurr]
      rfl
    have hfind : (runUniqueCallback s (pushTargetName s m) m.name).findDispatcher
        (pushTargetName s m) = some (d.antiUnique m.name) := by
      rw [hcb]
      simp
    have hnm : m.name ∉ (d.antiUnique m.name).uniques := by
      simp only [Dispatcher.uniques_antiUnique]
      exact hnodup.not_mem_erase
    have hnm2 : m2.name ∉ (d.antiUnique m.name).uniques := by
      rw [hn]
      exact hnm
    have hnotnil2 : ¬ (pushRoute m2.t = RouteTarget.nilDispatcher) := by
      rw [ht]
      exact hnotnil
    have huniq2 : m2.t = MessageType.UniqueShuntAsync ∨ m2.t = MessageType.UniqueAsync := by
      rw [ht]
      exact huniq
    simp only [pushMessage, he2, not_true_eq_false, if_false, Bool.not_true]
    rw [if_neg hnotnil2, htarget, hfind]
    simp only [huniq2, if_true, Dispatcher.unique_not_mem _ _ hnm2]
    simp [hfind]

/-- C1 witness: on a booted server with key `"K"` in flight on the system
dispatcher, a `UniqueAsync("K")` push leaves the queue untouched and
releases the record; after the callback runs, the same push is enqueued. -/
theorem uniqueAsync_coalescing_witness :
    (pushMessage (fun _ => true)
        { boot0 with dispatchers := fun n => if n = serverSystemDispatcher
            then some { name := serverSystemDispatcher, uniques := ["K"] } else none }
        { t := MessageType.UniqueAsync, name := "K" }).queueOf serverSystemDispatcher = [] ∧
    (pushMessage (fun _ => true)
        (runUniqueCallback
          { boot0 with dispatchers := fun n => if n = serverSystemDispatcher
              then some { name := serverSystemDispatcher, uniques := ["K"] } else none }
          serverSystemDispatcher "K")
        { t := MessageType.UniqueAsync, name := "K" }).queueOf serverSystemDispatcher
      = [{ t := MessageType.UniqueAsync, name := "K" }] := by
  have h := uniqueAsync_coalescing (fun _ => true)
    { boot0 with dispatchers := fun n => if n = serverSystemDispatcher
        then some { name := serverSystemDispatcher, uniques := ["K"] } else none }
    { t := MessageType.UniqueAsync, name := "K" }
    { name := serverSystemDispatcher, uniques := ["K"] }
    (Or.inl rfl) rfl rfl
  exact ⟨((h.1 (by decide)).1 : _), by
    have h3 := h.2.2 { t := MessageType.UniqueAsync, name := "K" }
      (by decide) rfl rfl rfl rfl
    exact h3⟩

/-!
## C2 — antiUnique accounting
-/

/-- C2 (code bug): the per-message half of the claim holds — for every
executed `UniqueAsyncCallback`/`UniqueShuntAsyncCallback` message the
deferred block of `dispatchMessage` calls `antiUnique(key)` exactly once,
after the callback ran, whether or not the callback panicked.  But the
"exactly one `antiUnique` per successful `unique(key)` set-and-test" part
fails on a reachable input: a `UniqueShuntAsync` message with a nil
connection and a callback (`PushUniqueShuntAsyncMessage(nil, key, caller,
callback)`) is routed to the system dispatcher, where `unique(key)` is
set; yet the async task's nil-conn branch (part_002 lines 584-590) tests
only `msg.t == MessageTypeUniqueAsync`, so it synthesizes a *plain*
`AsyncCallback` — whose execution performs no `antiUnique` — and no code
path ever releases the key: the lifecycle's `antiUnique` count is 0, the
key stays in the in-flight set, and every later unique-async with that key
is dropped.  The in-flight set therefore does not return to empty once
input is quiescent, contradicting the claim (spec P4). -/
theorem antiUnique_accounting_and_key_leak (key : String) (panics closed : Bool) :
    ((dispatchCallbackEffects MessageType.UniqueAsyncCallback key panics closed).count
        (Effect.antiUnique key) = 1 ∧
     (dispatchCallbackEffects MessageType.UniqueShuntAsyncCallback key panics closed).count
        (Effect.antiUnique key) = 1) ∧
    (∃ l1 l2, dispatchCallbackEffects MessageType.UniqueAsyncCallback key panics closed
        = l1 ++ Effect.antiUnique key :: l2 ∧ Effect.callbackRun key ∈ l1) ∧
    (∃ l1 l2, dispatchCallbackEffects MessageType.UniqueShuntAsyncCallback key panics closed
        = l1 ++ Effect.antiUnique key :: l2 ∧ Effect.callbackRun key ∈ l1) ∧
    asyncCallbackKind MessageType.UniqueShuntAsync true = MessageType.AsyncCallback ∧
    (uniqueAsyncLifecycle MessageType.UniqueShuntAsync key false true true false closed).count
        (Effect.antiUnique key) = 0 ∧
    (pushMessage (fun _ => true) boot0
        { t := MessageType.UniqueShuntAsync, conn := none, name := "K" }).uniquesOf
        serverSystemDispatcher = ["K"] ∧
    (pushMessage (fun _ => true)
        (pushMessage (fun _ => true) boot0
          { t := MessageType.UniqueShuntAsync, conn := none, name := "K" })
        { t := MessageType.UniqueShuntAsync, conn := none, name := "K" }).released
      = [{ t := MessageType.UniqueShuntAsync, conn := none, name := "K" }] := by
  refine ⟨⟨?_, ?_⟩, ?_, ?_, rfl, ?_, ?_, ?_⟩
  · cases panics <;> cases closed <;>
      simp [dispatchCallbackEffects, List.count_cons, List.count_append]
  · cases panics <;> cases closed <;>
      simp [dispatchCallbackEffects, List.count_cons, List.count_append]
  · cases panics <;> cases closed
    all_goals first
      | exact ⟨[Effect.callbackRun key], [Effect.counterDec], rfl, by simp⟩
      | exact ⟨[Effect.callbackRun key], [Effect.counterDec, Effect.release], rfl, by simp⟩
      | exact ⟨[Effect.callbackRun key, Effect.recovered], [Effect.counterDec], rfl, by simp⟩
      | exact ⟨[Effect.callbackRun key, Effect.recovered],
          [Effect.counterDec, Effect.release], rfl, by simp⟩
  · cases panics <;> cases closed
    all_goals first
      | exact ⟨[Effect.callbackRun key], [Effect.counterDec], rfl, by simp⟩
      | exact ⟨[Effect.callbackRun key], [Effect.counterDec, Effect.release], rfl, by simp⟩
      | exact ⟨[Effect.callbackRun key, Effect.recovered], [Effect.counterDec], rfl, by simp⟩
      | exact ⟨[Effect.callbackRun key, Effect.recovered],
          [Effect.counterDec, Effect.release], rfl, by simp⟩
  · cases closed <;>
      simp [uniqueAsyncLifecycle, asyncPhaseEffects, dispatchCallbackEffects,
        asyncCallbackKind, List.count_cons, List.count_append]
  · rfl
  · rfl

/-!
## C8 — gateway re-framing round trip
-/

theorem char_toNat_lt (c : Char) : c.toNat < 1114112 := by
  have h := c.valid
  unfold UInt32.isValidChar Nat.isValidChar at h
  rcases h with h | ⟨h1, h2⟩
  · exact Nat.lt_trans h (by norm_num)
  · exact h2

theorem utf8EncodeChar_lt (c : Char) : ∀ b ∈ utf8EncodeChar c, b < 255 := by
  intro b hb
  have hval := char_toNat_lt c
  unfold utf8EncodeChar at hb
  split_ifs at hb with h1 h2 h3 <;> simp at hb <;> omega

theorem utf8EncodeChar_clean (c : Char) (h34 : c.toNat ≠ 34) (h92 : c.toNat ≠ 92) :
    ∀ b ∈ utf8EncodeChar c, b ≠ 34 ∧ b ≠ 92 := by
  intro b hb
  unfold utf8EncodeChar at hb
  split_ifs at hb with h1 h2 h3 <;> simp at hb <;> omega

theorem expectLit_append (l r : List Nat) : expectLit l (l ++ r) = some r := by
  induction l with
  | nil => rfl
  | cons p ps ih => simp [expectLit, ih]

theorem parseJString_cons (b : Nat) (rest : List Nat) :
    parseJString (b :: rest)
      = if b = 34 then some ([], rest)
        else if b = 92 then
          match rest with
          | [] => none
          | e :: rest2 =>
            match parseJString rest2 with
            | some (s, r) => some (e :: s, r)
            | none => none
        else
          match parseJString rest with
          | some (s, r) => some (b :: s, r)
          | none => none := by
  cases rest <;> rfl

theorem parseJString_clean (xs t : List Nat) (hxs : ∀ b ∈ xs, b ≠ 34 ∧ b ≠ 92) :
    parseJString (xs ++ t) = (parseJString t).map (fun p => (xs ++ p.1, p.2)) := by
  induction xs with
  | nil =>
    simp only [List.nil_append]
    cases h : parseJString t <;> simp [h]
  | cons b xs ih =>
    have hb := hxs b (by simp)
    have ih2 := ih (fun x hx => hxs x (by simp [hx]))
    rw [List.cons_append, parseJString_cons, if_neg hb.1, if_neg hb.2, ih2]
    cases h : parseJString t <;> simp [h]

theorem parseJString_escape (cs : List Char) (r : List Nat) :
    parseJString (escapeString cs ++ (34 :: r)) = some (utf8Bytes cs, r) := by
  induction cs with
  | nil =>
    show parseJString (34 :: r) = some ([], r)
    rw [parseJString_cons, if_pos rfl]
  | cons c cs ih =>
    by_cases h34 : c.toNat = 34
    · have hesc : escapeChar c = [92, 34] := by simp [escapeChar, h34]
      have henc : utf8EncodeChar c = [34] := by
        simp [utf8EncodeChar, h34]
      show parseJString ((escapeChar c ++ escapeString cs) ++ (34 :: r)) = _
      rw [hesc]
      show parseJString (92 :: 34 :: (escapeString cs ++ (34 :: r))) = _
      rw [parseJString_cons, if_neg (by omega), if_pos rfl]
      show (match parseJString (escapeString cs ++ (34 :: r)) with
        | some (s, rr) => some ((34 : Nat) :: s, rr)
        | none => none) = _
      rw [ih]
      show some (34 :: utf8Bytes cs, r) = some (utf8EncodeChar c ++ utf8Bytes cs, r)
      rw [henc]
      rfl
    · by_cases h92 : c.toNat = 92
      · have hesc : escapeChar c = [92, 92] := by simp [escapeChar, h34, h92]
        have henc : utf8EncodeChar c = [92] := by
          simp [utf8EncodeChar, h92]
        show parseJString ((escapeChar c ++ escapeString cs) ++ (34 :: r)) = _
        rw [hesc]
        show parseJString (92 :: 92 :: (escapeString cs ++ (34 :: r))) = _
        rw [parseJString_cons, if_neg (by omega), if_pos rfl]
        show (match parseJString (escapeString cs ++ (34 :: r)) with
          | some (s, rr) => some ((92 : Nat) :: s, rr)
          | none => none) = _
        rw [ih]
        show some (92 :: utf8Bytes cs, r) = some (utf8EncodeChar c ++ utf8Bytes cs, r)
        rw [henc]
        rfl
      · have hesc : escapeChar c = utf8EncodeChar c := by simp [escapeChar, h34, h92]
        show parseJString ((escapeChar c ++ escapeString cs) ++ (34 :: r)) = _
        rw [hesc, List.append_assoc,
          parseJString_clean _ _ (utf8EncodeChar_clean c h34 h92), ih]
        rfl

theorem natDigitBytes_digits (n : Nat) : ∀ b ∈ natDigitBytes n, isDigitByte b = true := by
  intro b hb
  unfold natDigitBytes at hb
  split_ifs at hb with h
  · simp at hb
    subst hb
    rfl
  · simp only [List.mem_reverse, List.mem_map] at hb
    obtain ⟨d, hd, rfl⟩ := hb
    have hlt := Nat.digits_lt_base (by norm_num) hd
    simp [isDigitByte]
    omega

theorem digitsVal_natDigitBytes (n : Nat) : digitsVal (natDigitBytes n) = n := by
  unfold natDigitBytes digitsVal
  split_ifs with h
  · subst h
    rfl
  · rw [List.map_reverse, List.reverse_reverse, List.map_map]
    have hid : ((fun b => b - 48) ∘ fun d => 48 + d) = id := by
      funext d
      simp
    rw [hid, List.map_id, Nat.ofDigits_digits]

theorem natDigitBytes_ne_nil (n : Nat) : natDigitBytes n ≠ [] := by
  unfold natDigitBytes
  split_ifs with h
  · simp
  · simp [Nat.digits_ne_nil_iff_ne_zero, h]

theorem takeWhile_append_all (p : Nat → Bool) (xs r : List Nat)
    (h1 : ∀ x ∈ xs, p x = true) (h2 : ∀ b, r.head? = some b → p b = false) :
    (xs ++ r).takeWhile p = xs ∧ (xs ++ r).drop xs.length = r := by
  constructor
  · induction xs with
    | nil =>
      cases r with
      | nil => rfl
      | cons b r =>
        simp [List.takeWhile_cons, h2 b rfl]
    | cons x xs ih =>
      simp only [List.cons_append, List.takeWhile_cons, h1 x (by simp), if_true]
      rw [ih (fun y hy => h1 y (by simp [hy]))]
  · induction xs with
    | nil => rfl
    | cons x xs ih =>
      rw [List.cons_append]
      simp

theorem parseNatBytes_append (n : Nat) (r : List Nat)
    (hr : ∀ b, r.head? = some b → isDigitByte b = false) :
    parseNatBytes (natDigitBytes n ++ r) = some (n, r) := by
  have htw := takeWhile_append_all isDigitByte (natDigitBytes n) r (natDigitBytes_digits n) hr
  unfold parseNatBytes
  rw [htw.1]
  rw [if_neg (by simp [natDigitBytes_ne_nil n])]
  rw [digitsVal_natDigitBytes, htw.2]

theorem parseIntBytes_cons (b : Nat) (rest : List Nat) :
    parseIntBytes (b :: rest)
      = if b = 45 then (parseNatBytes rest).map (fun p => (-(p.1 : Int), p.2))
        else (parseNatBytes (b :: rest)).map (fun p => ((p.1 : Int), p.2)) := rfl

theorem parseIntBytes_append (i : Int) (r : List Nat)
    (hr : ∀ b, r.head? = some b → isDigitByte b = false) :
    parseIntBytes (intBytes i ++ r) = some (i, r) := by
  by_cases hi : i < 0
  · have hbytes : intBytes i = 45 :: natDigitBytes i.natAbs := by
      unfold intBytes
      rw [if_pos hi]
    rw [hbytes, List.cons_append, parseIntBytes_cons, if_pos rfl,
      parseNatBytes_append _ _ hr]
    simp only [Option.map_some']
    congr 2
    omega
  · have hbytes : intBytes i = natDigitBytes i.toNat := by
      unfold intBytes
      rw [if_neg hi]
    obtain ⟨d, ds, hds⟩ := List.exists_cons_of_ne_nil (natDigitBytes_ne_nil i.toNat)
    have hd : isDigitByte d = true := natDigitBytes_digits i.toNat d (by rw [hds]; simp)
    have hd45 : ¬ d = 45 := by
      simp [isDigitByte] at hd
      omega
    rw [hbytes, hds, List.cons_append, parseIntBytes_cons, if_neg hd45,
      show d :: (ds ++ r) = (d :: ds) ++ r from rfl, ← hds,
      parseNatBytes_append _ _ hr]
    simp only [Option.map_some']
    congr 2
    omega

theorem b64Val_b64Char : ∀ k < 64, b64Val (b64Char k) = k := by decide

theorem b64Char_ne_61 (k : Nat) : b64Char k ≠ 61 := by
  unfold b64Char
  split_ifs <;> omega

theorem b64Char_bounds (k : Nat) : 43 ≤ b64Char k ∧ b64Char k ≤ 122 := by
  unfold b64Char
  split_ifs <;> omega

theorem base64Encode_mem (bs : List Nat) : ∀ b ∈ base64Encode bs, b ≠ 34 ∧ b < 255 := by
  induction bs using base64Encode.induct with
  | case1 =>
    intro b hb
    simp [base64Encode] at hb
  | case2 b1 =>
    intro b hb
    have h1 := b64Char_bounds (b1 / 4)
    have h2 := b64Char_bounds (b1 % 4 * 16)
    simp only [base64Encode, List.mem_cons, List.not_mem_nil, or_false] at hb
    rcases hb with rfl | rfl | rfl | rfl <;> constructor <;> omega
  | case3 b1 b2 =>
    intro b hb
    have h1 := b64Char_bounds (b1 / 4)
    have h2 := b64Char_bounds (b1 % 4 * 16 + b2 / 16)
    have h3 := b64Char_bounds (b2 % 16 * 4)
    simp only [base64Encode, List.mem_cons, List.not_mem_nil, or_false] at hb
    rcases hb with rfl | rfl | rfl | rfl <;> constructor <;> omega
  | case4 b1 b2 b3 rest ih =>
    intro b hb
    have h1 := b64Char_bounds (b1 / 4)
    have h2 := b64Char_bounds (b1 % 4 * 16 + b2 / 16)
    have h3 := b64Char_bounds (b2 % 16 * 4 + b3 / 64)
    have h4 := b64Char_bounds (b3 % 64)
    simp only [base64Encode, List.mem_cons] at hb
    rcases hb with rfl | rfl | rfl | rfl | hb
    · constructor <;> omega
    · constructor <;> omega
    · constructor <;> omega
    · constructor <;> omega
    · exact ih b hb

theorem base64_roundtrip (bs : List Nat) (h : ∀ b ∈ bs, b < 256) :
    base64Decode (base64Encode bs) = some bs := by
  induction bs using base64Encode.induct with
  | case1 => rfl
  | case2 b1 =>
    have hb1 : b1 < 256 := h b1 (by simp)
    have e1 : b64Val (b64Char (b1 / 4)) * 4 + b64Val (b64Char (b1 % 4 * 16)) / 16 = b1 := by
      rw [b64Val_b64Char _ (by omega), b64Val_b64Char _ (by omega)]
      omega
    show base64Decode [b64Char (b1 / 4), b64Char (b1 % 4 * 16), 61, 61] = some [b1]
    unfold base64Decode
    rw [if_pos ⟨rfl, rfl, rfl⟩, e1]
  | case3 b1 b2 =>
    have hb1 : b1 < 256 := h b1 (by simp)
    have hb2 : b2 < 256 := h b2 (by simp)
    have e1 : b64Val (b64Char (b1 / 4)) * 4
        + b64Val (b64Char (b1 % 4 * 16 + b2 / 16)) / 16 = b1 := by
      rw [b64Val_b64Char _ (by omega), b64Val_b64Char _ (by omega)]
      omega
    have e2 : b64Val (b64Char (b1 % 4 * 16 + b2 / 16)) % 16 * 16
        + b64Val (b64Char (b2 % 16 * 4)) / 4 = b2 := by
      rw [b64Val_b64Char _ (by omega), b64Val_b64Char _ (by omega)]
      omega
    show base64Decode [b64Char (b1 / 4), b64Char (b1 % 4 * 16 + b2 / 16),
        b64Char (b2 % 16 * 4), 61] = some [b1, b2]
    unfold base64Decode
    rw [if_neg (fun hcon => b64Char_ne_61 (b2 % 16 * 4) hcon.1)]
    rw [if_pos ⟨rfl, rfl⟩, e1, e2]
  | case4 b1 b2 b3 rest ih =>
    have hb1 : b1 < 256 := h b1 (by simp)
    have hb2 : b2 < 256 := h b2 (by simp)
    have hb3 : b3 < 256 := h b3 (by simp)
    have ihr := ih (fun b hb => h b (by simp [hb]))
    have e1 : b64Val (b64Char (b1 / 4)) * 4
        + b64Val (b64Char (b1 % 4 * 16 + b2 / 16)) / 16 = b1 := by
      rw [b64Val_b64Char _ (by omega), b64Val_b64Char _ (by omega)]
      omega
    have e2 : b64Val (b64Char (b1 % 4 * 16 + b2 / 16)) % 16 * 16
        + b64Val (b64Char (b2 % 16 * 4 + b3 / 64)) / 4 = b2 := by
      rw [b64Val_b64Char _ (by omega), b64Val_b64Char _ (by omega)]
      omega
    have e3 : b64Val (b64Char (b2 % 16 * 4 + b3 / 64)) % 4 * 64
        + b64Val (b64Char (b3 % 64)) = b3 := by
      rw [b64Val_b64Char _ (by omega), b64Val_b64Char _ (by omega)]
      omega
    show base64Decode (b64Char (b1 / 4) :: b64Char (b1 % 4 * 16 + b2 / 16)
        :: b64Char (b2 % 16 * 4 + b3 / 64) :: b64Char (b3 % 64) :: base64Encode rest)
      = some (b1 :: b2 :: b3 :: rest)
    unfold base64Decode
    rw [if_neg (fun hcon => b64Char_ne_61 (b2 % 16 * 4 + b3 / 64) hcon.1)]
    rw [if_neg (fun hcon => b64Char_ne_61 (b3 % 64) hcon.1)]
    rw [ihr, e1, e2, e3]

theorem intBytes_mem (i : Int) : ∀ b ∈ intBytes i, b < 255 ∧ b ≠ 34 := by
  intro b hb
  unfold intBytes at hb
  have hdig : ∀ m b0, b0 ∈ natDigitBytes m → b0 < 255 ∧ b0 ≠ 34 := by
    intro m b0 hb0
    have := natDigitBytes_digits m b0 hb0
    simp [isDigitByte] at this
    omega
  split_ifs at hb with hi
  · rcases List.mem_cons.mp hb with rfl | hb
    · omega
    · exact hdig _ _ hb
  · exact hdig _ _ hb

theorem escapeString_mem (cs : List Char) : ∀ b ∈ escapeString cs, b < 255 := by
  intro b hb
  unfold escapeString at hb
  rw [List.mem_flatMap] at hb
  obtain ⟨c, _, hbc⟩ := hb
  unfold escapeChar at hbc
  split_ifs at hbc with h1 h2
  · simp at hbc
    omega
  · simp at hbc
    omega
  · exact utf8EncodeChar_lt c b hbc

theorem marshalGP_lt (gp : GP) : ∀ b ∈ marshalGP gp, b < 255 := by
  intro b hb
  unfold marshalGP at hb
  simp only [List.mem_append, List.mem_cons, List.mem_singleton] at hb
  rcases hb with ((((((((hb | hb) | hb) | hb) | hb) | hb) | hb) | hb) | hb) | hb
  · have : ∀ x ∈ litOpenC, x < 255 := by decide
    exact this b hb
  · exact escapeString_mem gp.C b hb
  · simp at hb
    omega
  · have : ∀ x ∈ litWT, x < 255 := by decide
    exact this b hb
  · exact (intBytes_mem gp.WT b hb).1
  · have : ∀ x ∈ litD, x < 255 := by decide
    exact this b hb
  · exact (base64Encode_mem gp.D b hb).2
  · have : ∀ x ∈ litT, x < 255 := by decide
    exact this b hb
  · exact (intBytes_mem gp.T b hb).1
  · simp at hb
    omega

/-- C8: on a gateway-proxy connection the write hook emits the JSON object
`{"C":…,"WT":…,"D":…,"T":…}` followed by a single terminator byte `0xFF`;
parsing the frame recovers the origin connection id `C` (bit-exactly, as
its UTF-8 bytes), the frame type `WT` and the payload `D`; and `0xFF`
occurs exactly once in the frame, as its last byte.  (`D` carries Go bytes,
hence the hypothesis that its entries are below 256.) -/
theorem gateway_roundtrip_unique_terminator (gp : GP) (hD : ∀ b ∈ gp.D, b < 256) :
    parseGP (gatewayFrame gp) = some (utf8Bytes gp.C, gp.WT, gp.D) ∧
    (gatewayFrame gp).count 255 = 1 ∧
    (gatewayFrame gp).getLast? = some 255 := by
  refine ⟨?_, ?_, ?_⟩
  · have hframe : gatewayFrame gp
        = litOpenC ++ (escapeString gp.C ++ (34 :: (litWT ++ (intBytes gp.WT
          ++ (litD ++ (base64Encode gp.D ++ (litT ++ (intBytes gp.T
          ++ [125, 255])))))))) := by
      unfold gatewayFrame marshalGP
      simp [List.append_assoc]
    have hWTtail : ∀ b : Nat,
        (litD ++ (base64Encode gp.D ++ (litT ++ (intBytes gp.T ++ [125, 255])))).head?
          = some b → isDigitByte b = false := by
      intro b hb
      simp [litD] at hb
      subst hb
      rfl
    have hb64tail : ∀ b : Nat,
        (litT ++ (intBytes gp.T ++ [125, 255])).head? = some b →
          (decide ¬ b = 34 : Bool) = false := by
      intro b hb
      simp [litT] at hb
      subst hb
      simp
    have htw := takeWhile_append_all (fun b => decide ¬ b = 34) (base64Encode gp.D)
      (litT ++ (intBytes gp.T ++ [125, 255]))
      (fun x hx => by simp [(base64Encode_mem gp.D x hx).1]) hb64tail
    rw [hframe]
    unfold parseGP
    rw [expectLit_append]
    simp only [Option.bind_eq_bind, Option.some_bind]
    rw [parseJString_escape]
    simp only [Option.bind_eq_bind, Option.some_bind]
    rw [expectLit_append]
    simp only [Option.bind_eq_bind, Option.some_bind]
    rw [parseIntBytes_append _ _ hWTtail]
    simp only [Option.bind_eq_bind, Option.some_bind]
    rw [expectLit_append]
    simp only [Option.bind_eq_bind, Option.some_bind]
    rw [htw.1, base64_roundtrip _ hD]
    rfl
  · unfold gatewayFrame
    rw [List.count_append]
    have h0 : (marshalGP gp).count 255 = 0 := by
      rw [List.count_eq_zero]
      intro hmem
      exact absurd rfl (Nat.ne_of_lt (marshalGP_lt gp 255 hmem))
    rw [h0]
    rfl
  · unfold gatewayFrame
    simp

/-- C8 witness: the spec's S4 example — id `"c-17"`, frame type 2, payload
`[1, 2]` — parses back bit-exactly and the frame ends in its single
`0xFF`. -/
theorem gateway_roundtrip_unique_terminator_witness :
    parseGP (gatewayFrame (GP.mk [Char.ofNat 99, Char.ofNat 45, Char.ofNat 49, Char.ofNat 55]
        2 [1, 2] 5))
      = some (utf8Bytes [Char.ofNat 99, Char.ofNat 45, Char.ofNat 49, Char.ofNat 55], 2, [1, 2]) ∧
    (gatewayFrame (GP.mk [Char.ofNat 99, Char.ofNat 45, Char.ofNat 49, Char.ofNat 55]
        2 [1, 2] 5)).count 255 = 1 := by
  have h := gateway_roundtrip_unique_terminator
    (GP.mk [Char.ofNat 99, Char.ofNat 45, Char.ofNat 49, Char.ofNat 55] 2 [1, 2] 5)
    (by decide)
  exact ⟨h.1, h.2.1⟩

end Minotaur
